import Mathlib

/-!
Verification development for the URL status checker (src/urlche.py).

The program is embedded shallowly: JSON-ish Python values become the
inductive type PyVal, the network becomes explicit response oracles
(functions from call index to a Response record), caught exceptions
become Option/Except sentinels, and the Streamlit UI messages become an
explicit error-kind field. Each definition carries a comment naming the
Python function and lines it embeds.
-/

namespace UrlChe

/-- Values that can appear in the JSON bodies handled by the program
(dict keys are strings, as in JSON). Numbers are modelled as integers;
the claims under study never depend on fractional values. -/
inductive PyVal where
  | vNone : PyVal
  | vBool : Bool → PyVal
  | vInt : Int → PyVal
  | vStr : String → PyVal
  | vList : List PyVal → PyVal
  | vDict : List (String × PyVal) → PyVal

/-- Python truthiness of a value: None and False are falsy, numbers are
truthy iff nonzero, strings/lists/dicts are truthy iff non-empty. -/
def pyTruthy : PyVal → Bool
  | PyVal.vNone => false
  | PyVal.vBool b => b
  | PyVal.vInt n => n != 0
  | PyVal.vStr s => !s.isEmpty
  | PyVal.vList xs => !xs.isEmpty
  | PyVal.vDict kvs => !kvs.isEmpty

/-- Whitespace characters stripped by Python str.strip and str.lstrip. -/
def isPySpace (c : Char) : Bool :=
  c = ' ' || c = '\t' || c = '\n' || c = '\r' || c = '\x0b' || c = '\x0c'

/-- Both-ends whitespace strip on a character list (Python str.strip). -/
def pyStripL (cs : List Char) : List Char :=
  ((cs.dropWhile isPySpace).reverse.dropWhile isPySpace).reverse

/-- Numeric value of a digit list, most significant first. -/
def digitsVal (cs : List Char) : Nat :=
  cs.foldl (fun a c => 10 * a + (c.toNat - 48)) 0

/-- Integer parse of a stripped character list: optional sign followed by
at least one decimal digit, as accepted by Python int(str). -/
def strToIntCore : List Char → Option Int
  | '-' :: rest =>
      if !rest.isEmpty && rest.all Char.isDigit then some (-(digitsVal rest : Int)) else none
  | '+' :: rest =>
      if !rest.isEmpty && rest.all Char.isDigit then some ((digitsVal rest : Int)) else none
  | cs =>
      if !cs.isEmpty && cs.all Char.isDigit then some ((digitsVal cs : Int)) else none

/-- Python int(x): ints pass through, booleans become 0 or 1, strings are
parsed after stripping whitespace; anything else raises, modelled none. -/
def pyToInt : PyVal → Option Int
  | PyVal.vInt n => some n
  | PyVal.vBool b => some (if b then 1 else 0)
  | PyVal.vStr s => strToIntCore (pyStripL s.data)
  | _ => none

/-- Python subscript x[i] for a nonnegative literal index: lists index
positionally, strings yield a one-character string; any other receiver
raises (modelled none; a JSON dict keyed by strings has no key i). -/
def pyIndex : PyVal → Nat → Option PyVal
  | PyVal.vList xs, i => xs[i]?
  | PyVal.vStr s, i => (s.data[i]?).map (fun c => PyVal.vStr (String.mk [c]))
  | _, _ => none

/-- Association-list lookup used for dict.get and the country table. -/
def dictGet : List (String × PyVal) → String → Option PyVal
  | [], _ => none
  | (k, v) :: rest, key => if k = key then some v else dictGet rest key

/-- One HTTP response as seen by the program: the body text, and the
outcome of calling response.json() on it (none models the ValueError
raised on a body that is not valid JSON). -/
structure Response where
  text : String
  json : Option PyVal

/-- Which error message branch of check_url fired (each corresponds to
one st.error call, or to the outer catch-all except block). -/
inductive CheckErr where
  | csrfExtract : CheckErr
  | htmlAfterToken : CheckErr
  | noRequestId : CheckErr
  | invalidJson : CheckErr
  | timeout : CheckErr
  | exception : CheckErr

/-- Observable outcome of check_url: the returned value (none models
returning None), the error branch taken if any, the number of submission
GETs issued, the number of poll GETs issued, and the total units slept
(time.sleep(2) runs before every poll GET). -/
structure CheckUrlOut where
  result : Option PyVal
  err : Option CheckErr
  subCalls : Nat
  pollCalls : Nat
  sleepUnits : Nat

/-- Test from line 21 and line 28 of urlche.py: the body, after a left
strip, starts with an opening curly brace, so it is treated as JSON. -/
def looksJson (s : String) : Bool :=
  match s.data.dropWhile isPySpace with
  | [] => false
  | c :: _ => c = '\x7b'

/-- Test from line 41: response.text.strip() is empty, so the poll
result is treated as not ready yet. -/
def isBlank (s : String) : Bool :=
  s.data.all isPySpace

/-- Literal part of the CSRF regex on line 10 of urlche.py. -/
def csrfLit : List Char := ("name=\"csrf_token\" value=\"").data

/-- Match a literal at the head of the input, returning the remainder. -/
def matchLit : List Char → List Char → Option (List Char)
  | [], rest => some rest
  | _ :: _, [] => none
  | l :: ls, c :: cs => if l = c then matchLit ls cs else none

/-- Lazy group scan for the regex tail, continuing an already non-empty
capture: the group ends at the first double quote, and fails if a
newline or the end of input is reached first (the dot of the pattern
does not match a newline). -/
def csrfScan (acc : List Char) : List Char → Option String
  | [] => none
  | c :: rest =>
      if c = '"' then some (String.mk acc.reverse)
      else if c = '\n' then none
      else csrfScan (c :: acc) rest

/-- Lazy group capture for the one-or-more group of the regex: at least
one character (not a newline) must precede the closing double quote. -/
def csrfCapture : List Char → Option String
  | [] => none
  | c :: rest => if c = '\n' then none else csrfScan [c] rest

/-- Leftmost regex search: try the literal at every start position in
order, and at the first position where the literal and the capture both
succeed, return the captured group. -/
def csrfSearch : List Char → Option String
  | [] => none
  | c :: cs =>
      match matchLit csrfLit (c :: cs) with
      | some rest =>
          match csrfCapture rest with
          | some tok => some tok
          | none => csrfSearch cs
      | none => csrfSearch cs

/-- Embeds get_csrf_token (lines 9 to 11): re.search for the pattern
name="csrf_token" value="(.+?)", returning the captured group. -/
def get_csrf_token (html : String) : Option String :=
  csrfSearch html.data

/-- Embeds the submission phase of check_url (lines 16 to 30): issue the
first GET; if the body does not look like JSON, try to extract a CSRF
token; with no token it fails after one call, otherwise it re-submits
once and fails if the second body still does not look like JSON. The
returned number counts the submission GETs issued. -/
def submitPhase (sr : Nat → Response) : Except CheckErr Response × Nat :=
  let r0 := sr 0
  if looksJson r0.text then (Except.ok r0, 1)
  else
    match get_csrf_token r0.text with
    | none => (Except.error CheckErr.csrfExtract, 1)
    | some _ =>
        let r1 := sr 1
        if looksJson r1.text then (Except.ok r1, 2)
        else (Except.error CheckErr.htmlAfterToken, 2)

/-- Python truthiness of dict.get output, where none models the Python
None returned for a missing key (line 33: if not request_id). -/
def truthyOpt : Option PyVal → Bool
  | none => false
  | some v => pyTruthy v

/-- Embeds data.get with the request_id key (line 32): dict lookup on a
JSON object; on any non-dict value .get raises AttributeError, which the
outer except block of check_url swallows. -/
def reqIdOf : PyVal → Except CheckErr (Option PyVal)
  | PyVal.vDict kvs => Except.ok (dictGet kvs ("request_id"))
  | _ => Except.error CheckErr.exception

/-- Embeds the poll loop of check_url (lines 38 to 51), structurally
recursive on the remaining attempt budget; calls counts the poll GETs
already issued, so the attempt about to run reads (pr calls). Each
attempt first sleeps 2 units, hence the 2 * calls accounting. A blank
body continues, a body that fails JSON parse aborts with an error, a
truthy parsed value is returned at once, a falsy parsed value continues;
an exhausted budget is the timeout error. -/
def pollGo (pr : Nat → Response) (sub : Nat) : Nat → Nat → CheckUrlOut
  | 0, calls => ⟨none, some CheckErr.timeout, sub, calls, 2 * calls⟩
  | fuel + 1, calls =>
      let r := pr calls
      if isBlank r.text then pollGo pr sub fuel (calls + 1)
      else
        match r.json with
        | none => ⟨none, some CheckErr.invalidJson, sub, calls + 1, 2 * (calls + 1)⟩
        | some d =>
            if pyTruthy d then ⟨some d, none, sub, calls + 1, 2 * (calls + 1)⟩
            else pollGo pr sub fuel (calls + 1)

/-- The poll loop as entered by check_url: a budget of 10 attempts and
no poll GETs issued yet. -/
def pollPhase (pr : Nat → Response) (sub : Nat) : CheckUrlOut :=
  pollGo pr sub 10 0

/-- Embeds check_url (lines 13 to 54). The oracles sr and pr give the
bodies of the successive submission GETs and poll GETs; every network
call is assumed to return (transport exceptions would be swallowed by
the outer except block into the same None sentinel). -/
def check_url (sr pr : Nat → Response) : CheckUrlOut :=
  match submitPhase sr with
  | (Except.error e, n) => ⟨none, some e, n, 0, 0⟩
  | (Except.ok r, n) =>
      match r.json with
      | none => ⟨none, some CheckErr.exception, n, 0, 0⟩
      | some data =>
          match reqIdOf data with
          | Except.error e => ⟨none, some e, n, 0, 0⟩
          | Except.ok rid =>
              if truthyOpt rid then pollGo pr n 10 0
              else ⟨none, some CheckErr.noRequestId, n, 0, 0⟩

/-- Python test x is None. -/
def isNoneVal : PyVal → Bool
  | PyVal.vNone => true
  | _ => false

/-- Embeds the per-node test of the analyze_result loop body (lines 64
to 74): skip falsy, non-list or falsy-first-element entries, parse the
success flag and the status with int (any exception skips the node;
a None status stays None), and count the node as active iff the flag is
1 and the status is truthy and lies in the 200 to 399 range. -/
def nodeActive (res : PyVal) : Bool :=
  if !pyTruthy res then false
  else
    match res with
    | PyVal.vList (check :: _) =>
        if !pyTruthy check then false
        else
          match pyIndex check 0 with
          | none => false
          | some c0 =>
              match pyToInt c0 with
              | none => false
              | some sf =>
                  match pyIndex check 3 with
                  | none => false
                  | some c3 =>
                      if isNoneVal c3 then false
                      else
                        match pyToInt c3 with
                        | none => false
                        | some sc =>
                            sf == 1 && (sc != 0 && decide (200 ≤ sc) && decide (sc < 400))
    | _ => false

/-- Active node ids collected by the analyze_result loop, in dict
iteration order: the loop appends exactly the keys whose entry passes
the nodeActive test. -/
def activeNodesOf (kvs : List (String × PyVal)) : List String :=
  (kvs.filter (fun p => nodeActive p.2)).map Prod.fst

/-- Embeds analyze_result (lines 56 to 75). The function iterates over
result.items(); on any non-dict argument that attribute access raises
AttributeError, which nothing in the function catches (the inner
try/except only wraps the int conversions), modelled as Except.error. -/
def analyze_result : PyVal → Except Unit (List String)
  | PyVal.vDict kvs => Except.ok (activeNodesOf kvs)
  | _ => Except.error ()

/-- Static country table of map_node_to_country (lines 82 to 93). -/
def countryTable : List (String × String) :=
  [("us", "USA"), ("ch", "Switzerland"), ("pt", "Portugal"), ("ru", "Russia"),
   ("de", "Germany"), ("in", "India"), ("uk", "United Kingdom"),
   ("fr", "France"), ("jp", "Japan")]

/-- Association-list lookup for the country table (dict.get). -/
def tblGet : List (String × String) → String → Option String
  | [], _ => none
  | (k, v) :: rest, key => if k = key then some v else tblGet rest key

/-- Embeds map_node_to_country (lines 77 to 95): look up the lower-cased
two-character head of the node id, falling back to the raw node id (the
lower-casing is done character-wise; the table keys are ASCII). -/
def map_node_to_country (node_id : String) : String :=
  match tblGet countryTable (String.mk ((node_id.data.take 2).map Char.toLower)) with
  | some c => c
  | none => node_id

/-- Embeds check_with_scraping (lines 97 to 110). The single requests.get
is modelled by its outcome: either a status code, or the message of the
exception it raised (which the function catches). -/
def check_with_scraping (resp : Except String Nat) : Bool × String :=
  match resp with
  | Except.ok code =>
      if 200 ≤ code ∧ code < 400 then (true, ("HTTP ") ++ toString code)
      else (false, ("HTTP ") ++ toString code)
  | Except.error e => (false, e)

/-- One result row of the output table (line 132). -/
structure Row where
  url : String
  status : String
  otherActive : String

/-- Per-URL observable outcome of the main loop: the row appended to the
results, plus the number of remote submission and poll GETs issued. -/
structure ProcOut where
  row : Row
  subCalls : Nat
  pollCalls : Nat

/-- Embeds the body of the per-URL loop of main (lines 130 to 164):
direct check first; on failure fall back to check_url, and classify its
result through analyze_result, map_node_to_country and the India filter.
An Except.error propagates the uncaught AttributeError that
analyze_result raises when the poll result is a truthy non-dict value. -/
def processUrl (url : String) (scrape : Except String Nat) (sr pr : Nat → Response) :
    Except Unit ProcOut :=
  let s := check_with_scraping scrape
  if s.1 then Except.ok ⟨⟨url, ("Active (Direct)"), ("")⟩, 0, 0⟩
  else
    let out := check_url sr pr
    match out.result with
    | some bulk =>
        if pyTruthy bulk then
          match analyze_result bulk with
          | Except.error e => Except.error e
          | Except.ok active_nodes =>
              if !active_nodes.isEmpty then
                let active_countries := active_nodes.map map_node_to_country
                let filtered := active_countries.filter (fun c => c ≠ ("India"))
                if !filtered.isEmpty then
                  Except.ok ⟨⟨url, ("Active (Other Countries)"),
                    (", ").intercalate filtered⟩, out.subCalls, out.pollCalls⟩
                else
                  Except.ok ⟨⟨url, ("Inactive (No non-India nodes)"), ("")⟩,
                    out.subCalls, out.pollCalls⟩
              else
                Except.ok ⟨⟨url, ("Inactive"), ("")⟩, out.subCalls, out.pollCalls⟩
        else Except.ok ⟨⟨url, ("Error retrieving API data"), ("")⟩, out.subCalls, out.pollCalls⟩
    | none => Except.ok ⟨⟨url, ("Error retrieving API data"), ("")⟩, out.subCalls, out.pollCalls⟩

/-- Embeds the batch loop of main over the parsed URL list: rows are
appended in order, and an uncaught exception from one URL aborts the
whole loop (main has no try block of its own). The oracles are indexed
by URL so that each URL sees its own network behaviour. -/
def runBatch (scrape : String → Except String Nat) (sr pr : String → Nat → Response) :
    List String → Except Unit (List Row)
  | [] => Except.ok []
  | url :: rest =>
      match processUrl url (scrape url) (sr url) (pr url) with
      | Except.error e => Except.error e
      | Except.ok out =>
          match runBatch scrape sr pr rest with
          | Except.error e => Except.error e
          | Except.ok rows => Except.ok (out.row :: rows)

/-- A CSV field must be quoted when it contains a separator, a quote or
a line break (the QUOTE_MINIMAL policy used by DataFrame.to_csv). -/
def fieldNeedsQuote (cs : List Char) : Bool :=
  cs.any (fun c => c = ',' || c = '"' || c = '\n' || c = '\r')

/-- Double every double quote inside a quoted CSV field. -/
def escQuotes : List Char → List Char
  | [] => []
  | c :: rest => if c = '"' then '"' :: '"' :: escQuotes rest else c :: escQuotes rest

/-- Render one CSV field under QUOTE_MINIMAL. -/
def encFieldL (cs : List Char) : List Char :=
  if fieldNeedsQuote cs then '"' :: (escQuotes cs ++ ['"']) else cs

/-- Render one data record of the exported table (URL, Status, Other
Active Countries), without the line terminator. -/
def encRecordL (r : Row) : List Char :=
  encFieldL r.url.data ++ ',' :: (encFieldL r.status.data ++ ',' :: encFieldL r.otherActive.data)

/-- Header record written by to_csv for the three-column frame built on
line 167, in column insertion order. -/
def csvHeaderL : List Char := ("URL,Status,Other Active Countries").data

/-- Character stream of the exported CSV: header and one record per row,
each terminated by a newline. -/
def csvChars (rows : List Row) : List Char :=
  csvHeaderL ++ '\n' :: rows.foldr (fun r acc => encRecordL r ++ '\n' :: acc) []

/-- Models df.to_csv(index=False) on line 170: pandas renders the frame
with csv.QUOTE_MINIMAL quoting and newline record terminators, and with
no index column. -/
def to_csv (rows : List Row) : String :=
  String.mk (csvChars rows)

/-- Number of newline characters in a string, the physical line count of
a newline-terminated text. -/
def nlCount (s : String) : Nat :=
  s.data.count '\n'

/-- Parser mode of the CSV field splitter: at the start of a field,
inside an unquoted field, inside a quoted field, or just after a quote
inside a quoted field (a following quote is a literal quote, anything
else closes the quoted part). -/
inductive PMode where
  | start : PMode
  | unq : PMode
  | inq : PMode
  | qq : PMode

/-- CSV field splitter for one record: a quote at field start opens a
quoted field, a doubled quote inside quotes is a literal quote, a single
quote closes the quoted part, and a separator outside quotes ends the
field. -/
def pfGo : PMode → List Char → List Char → List (List Char)
  | _, acc, [] => [acc.reverse]
  | PMode.start, acc, c :: rest =>
      if c = '"' then pfGo PMode.inq acc rest
      else if c = ',' then acc.reverse :: pfGo PMode.start [] rest
      else pfGo PMode.unq (c :: acc) rest
  | PMode.unq, acc, c :: rest =>
      if c = ',' then acc.reverse :: pfGo PMode.start [] rest
      else pfGo PMode.unq (c :: acc) rest
  | PMode.inq, acc, c :: rest =>
      if c = '"' then pfGo PMode.qq acc rest
      else pfGo PMode.inq (c :: acc) rest
  | PMode.qq, acc, c :: rest =>
      if c = '"' then pfGo PMode.inq ('"' :: acc) rest
      else if c = ',' then acc.reverse :: pfGo PMode.start [] rest
      else pfGo PMode.unq (c :: acc) rest

/-- Parse the fields of one CSV record. -/
def parseRecord (cs : List Char) : List (List Char) :=
  pfGo PMode.start [] cs

/-- A poll response body that is non-empty yet parses to a falsy JSON
value, such as the empty object or the empty array. -/
def falsyJsonResp (r : Response) : Bool :=
  !isBlank r.text &&
    (match r.json with
     | some d => !pyTruthy d
     | none => false)

/-- A poll response the loop skips: a blank body, or a non-empty body
parsing to a falsy value. -/
def skipResp (r : Response) : Bool :=
  isBlank r.text || falsyJsonResp r

/-- The canonical not-ready poll response: an empty body (on which
response.json() would raise, hence the none). -/
def respBlank : Response := ⟨("") , none⟩

/-- Concrete scenario: the direct probe raises a transport exception. -/
def cexScrape : Except String Nat := Except.error ("connection error")

/-- Concrete scenario: the JSON value of a successful submission. -/
def ticketJson : PyVal := PyVal.vDict [(("request_id"), PyVal.vStr ("abc"))]

/-- Concrete scenario: every submission GET answers with the ticket. -/
def srTicket : Nat → Response :=
  fun _ => ⟨("\x7b\"request_id\": \"abc\"\x7d"), some ticketJson⟩

/-- Concrete scenario: a poll body that is valid JSON but a list, the
shape on which analyze_result raises AttributeError. -/
def prListBody : Nat → Response :=
  fun _ => ⟨("[1]"), some (PyVal.vList [PyVal.vInt 1])⟩

/-- Concrete scenario: a successful five-tuple node result. -/
def okCheck : PyVal :=
  PyVal.vList [PyVal.vInt 1, PyVal.vInt 0, PyVal.vStr ("OK"), PyVal.vInt 200,
    PyVal.vStr ("1.2.3.4")]

/-- Concrete scenario: a poll result with one USA node and one India
node, both active. -/
def resUsIn : PyVal :=
  PyVal.vDict [(("us1.node"), PyVal.vList [okCheck]), (("in2.node"), PyVal.vList [okCheck])]

/-- Concrete scenario: every poll GET answers with the USA and India
node results. -/
def prUsIn : Nat → Response :=
  fun _ => ⟨("\x7b\"us1.node\": x, \"in2.node\": x\x7d"), some resUsIn⟩

/-- Concrete scenario: a poll result whose only active node has a node
id containing a newline character. -/
def resNlNode : PyVal :=
  PyVal.vDict [(("x\ny"), PyVal.vList [okCheck])]

/-- Concrete scenario: every poll GET answers with the newline node. -/
def prNlNode : Nat → Response :=
  fun _ => ⟨("\x7b\"x\ny\": x\x7d"), some resNlNode⟩

/-- Concrete scenario: a non-empty poll body parsing to the empty
object, which is falsy. -/
def prFalsy : Nat → Response :=
  fun _ => ⟨("\x7b\x7d"), some (PyVal.vDict [])⟩

/-- Concrete scenario: a non-empty poll body that is not valid JSON. -/
def prBadJson : Nat → Response :=
  fun _ => ⟨("<html>oops</html>"), none⟩

/-- Concrete scenario: a submission challenge page without any CSRF
token pattern. -/
def srHtmlNoTok : Nat → Response :=
  fun _ => ⟨("<html><body>are you human</body></html>"), none⟩

/-- Concrete scenario: a submission challenge page carrying a CSRF
token, returned on every submission GET. -/
def srHtmlTok : Nat → Response :=
  fun _ => ⟨("<form><input name=\"csrf_token\" value=\"t0k\"></form>"), none⟩

end UrlChe

namespace UrlChe

/-- Helper: the poll loop never touches the submission call count. -/
theorem lem_pollGo_sub (pr : Nat → Response) (sub : Nat) :
    ∀ fuel calls, (pollGo pr sub fuel calls).subCalls = sub := by
  intro fuel
  induction fuel with
  | zero => intro calls; rfl
  | succ f ih =>
      intro calls
      simp only [pollGo]
      cases hb : isBlank (pr calls).text
      · simp only [hb, Bool.false_eq_true, if_false]
        rcases hj : (pr calls).json with _ | d
        · rfl
        · cases ht : pyTruthy d
          · simp only [ht, Bool.false_eq_true, if_false, ih]
          · simp only [ht, if_true]
      · simp only [hb, if_true, ih]

/-- Helper: the poll loop issues at most fuel further GETs. -/
theorem lem_pollGo_calls_le (pr : Nat → Response) (sub : Nat) :
    ∀ fuel calls, (pollGo pr sub fuel calls).pollCalls ≤ calls + fuel := by
  intro fuel
  induction fuel with
  | zero => intro calls; simp [pollGo]
  | succ f ih =>
      intro calls
      simp only [pollGo]
      cases hb : isBlank (pr calls).text
      · simp only [hb, Bool.false_eq_true, if_false]
        rcases hj : (pr calls).json with _ | d
        · show calls + 1 ≤ calls + (f + 1); omega
        · cases ht : pyTruthy d
          · simp only [ht, Bool.false_eq_true, if_false]
            have := ih (calls + 1); omega
          · simp only [ht, if_true]
            show calls + 1 ≤ calls + (f + 1); omega
      · simp only [hb, if_true]
        have := ih (calls + 1); omega

/-- Helper: total sleep is two units per poll GET issued. -/
theorem lem_pollGo_sleep (pr : Nat → Response) (sub : Nat) :
    ∀ fuel calls, (pollGo pr sub fuel calls).sleepUnits = 2 * (pollGo pr sub fuel calls).pollCalls := by
  intro fuel
  induction fuel with
  | zero => intro calls; rfl
  | succ f ih =>
      intro calls
      simp only [pollGo]
      cases hb : isBlank (pr calls).text
      · simp only [hb, Bool.false_eq_true, if_false]
        rcases hj : (pr calls).json with _ | d
        · rfl
        · cases ht : pyTruthy d
          · simp only [ht, Bool.false_eq_true, if_false, ih]
          · simp only [ht, if_true]
      · simp only [hb, if_true, ih]

/-- Helper: a skipped response advances the loop by one attempt. -/
theorem lem_pollGo_skip (pr : Nat → Response) (sub fuel calls : Nat)
    (h : skipResp (pr calls) = true) :
    pollGo pr sub (fuel + 1) calls = pollGo pr sub fuel (calls + 1) := by
  simp only [pollGo]
  cases hb : isBlank (pr calls).text
  · simp only [hb, Bool.false_eq_true, if_false]
    have hf : falsyJsonResp (pr calls) = true := by
      simp only [skipResp, hb, Bool.false_or] at h
      exact h
    simp only [falsyJsonResp, hb, Bool.not_false, Bool.true_and] at hf
    rcases hj : (pr calls).json with _ | d
    · rw [hj] at hf; cases hf
    · rw [hj] at hf
      simp only [Bool.not_eq_true'] at hf
      simp only [hf, Bool.false_eq_true, if_false]
  · simp only [hb, if_true]

/-- Helper: a run of skipped responses advances the loop attempt by
attempt, spending one unit of budget each. -/
theorem lem_pollGo_skipN (pr : Nat → Response) (sub : Nat) :
    ∀ k fuel calls, k ≤ fuel → (∀ j, j < k → skipResp (pr (calls + j)) = true) →
      pollGo pr sub fuel calls = pollGo pr sub (fuel - k) (calls + k) := by
  intro k
  induction k with
  | zero => intro fuel calls _ _; simp
  | succ n ih =>
      intro fuel calls hk hskip
      rcases fuel with _ | f
      · omega
      · have h0 : skipResp (pr calls) = true := by
          have := hskip 0 (by omega); simpa using this
        rw [lem_pollGo_skip pr sub f calls h0]
        have := ih f (calls + 1) (by omega)
          (fun j hj => by
            have := hskip (j + 1) (by omega)
            simpa [Nat.add_assoc, Nat.add_comm 1 j] using this)
        rw [this]
        congr 1
        · omega
        · omega

/-- Helper: replacing every falsy-JSON poll response by a blank one
does not change the poll loop at all. -/
theorem lem_pollGo_mask (pr : Nat → Response) (sub : Nat) :
    ∀ fuel calls, pollGo pr sub fuel calls =
      pollGo (fun j => if falsyJsonResp (pr j) then respBlank else pr j) sub fuel calls := by
  intro fuel
  induction fuel with
  | zero => intro calls; rfl
  | succ f ih =>
      intro calls
      cases hf : falsyJsonResp (pr calls)
      · have hsame : (fun j => if falsyJsonResp (pr j) then respBlank else pr j) calls = pr calls := by
          simp [hf]
        simp only [pollGo, hsame]
        cases hb : isBlank (pr calls).text
        · simp only [hb, Bool.false_eq_true, if_false]
          rcases hj : (pr calls).json with _ | d
          · rfl
          · cases ht : pyTruthy d
            · simp only [ht, Bool.false_eq_true, if_false, ih]
            · simp only [ht, if_true]
        · simp only [hb, if_true, ih]
      · have hmask : (fun j => if falsyJsonResp (pr j) then respBlank else pr j) calls = respBlank := by
          simp [hf]
        have hb : isBlank (pr calls).text = false := by
          simp only [falsyJsonResp, Bool.and_eq_true, Bool.not_eq_true'] at hf
          exact hf.1
        simp only [falsyJsonResp, hb, Bool.not_false, Bool.true_and] at hf
        rcases hj : (pr calls).json with _ | d
        · rw [hj] at hf; cases hf
        · rw [hj] at hf
          simp only [Bool.not_eq_true'] at hf
          simp only [pollGo, hmask, hb, Bool.false_eq_true, if_false, hj, hf]
          have hbb : isBlank respBlank.text = true := by rfl
          simp only [hbb, if_true, ih]

/-- Helper: a value returned by the poll loop is always truthy, and a
None return always carries an error branch; also the converse. -/
theorem lem_pollGo_shape (pr : Nat → Response) (sub : Nat) :
    ∀ fuel calls,
      ((pollGo pr sub fuel calls).result = none ↔ (pollGo pr sub fuel calls).err.isSome = true) ∧
      (∀ v, (pollGo pr sub fuel calls).result = some v → pyTruthy v = true) := by
  intro fuel
  induction fuel with
  | zero =>
      intro calls
      refine ⟨by simp [pollGo], ?_⟩
      intro v hv
      simp [pollGo] at hv
  | succ f ih =>
      intro calls
      simp only [pollGo]
      cases hb : isBlank (pr calls).text
      · simp only [hb, Bool.false_eq_true, if_false]
        rcases hj : (pr calls).json with _ | d
        · exact ⟨by simp, by intro v hv; simp at hv⟩
        · cases ht : pyTruthy d
          · simp only [ht, Bool.false_eq_true, if_false]
            exact ih (calls + 1)
          · simp only [ht, if_true]
            refine ⟨by simp, ?_⟩
            intro v hv
            simp only [Option.some.injEq] at hv
            rw [← hv]; exact ht
      · simp only [hb, if_true]
        exact ih (calls + 1)

/-- Helper: the submission phase issues one or two GETs. -/
theorem lem_submit_calls (sr : Nat → Response) :
    (submitPhase sr).2 = 1 ∨ (submitPhase sr).2 = 2 := by
  simp only [submitPhase]
  cases h0 : looksJson (sr 0).text
  · simp only [h0, Bool.false_eq_true, if_false]
    rcases ht : get_csrf_token (sr 0).text with _ | tok
    · simp
    · cases h1 : looksJson (sr 1).text <;> simp [h1]
  · simp [h0]

/-- Helper: check_url reports exactly the submission GET count of its
submission phase. -/
theorem lem_check_url_sub (sr pr : Nat → Response) :
    (check_url sr pr).subCalls = (submitPhase sr).2 := by
  unfold check_url
  split
  · rename_i e n h
    rw [h]
  · rename_i r n h
    rw [h]
    split
    · rfl
    · split
      · rfl
      · split
        · exact lem_pollGo_sub pr n 10 0
        · rfl

/-- Helper: a value returned by check_url is always truthy. -/
theorem lem_check_url_some_truthy (sr pr : Nat → Response) (v : PyVal)
    (h : (check_url sr pr).result = some v) : pyTruthy v = true := by
  revert h
  unfold check_url
  split
  · intro h; cases h
  · rename_i r n hs
    split
    · intro h; cases h
    · split
      · intro h; cases h
      · split
        · rename_i rid hr ht
          exact (lem_pollGo_shape pr n 10 0).2 v
        · intro h; cases h

/-- Helper: check_url returns None exactly when one of its error
branches fired. -/
theorem lem_check_url_none_iff (sr pr : Nat → Response) :
    (check_url sr pr).result = none ↔ (check_url sr pr).err.isSome = true := by
  unfold check_url
  split
  · simp
  · rename_i r n hs
    split
    · simp
    · split
      · simp
      · split
        · rename_i rid hr ht
          exact (lem_pollGo_shape pr n 10 0).1
        · simp

/-- C3: for every submission whose first response body is not JSON (the
code discriminates by whether the left-stripped body starts with an
opening brace), the submitter performs at most one resubmission: with no
CSRF token match it returns the None sentinel after exactly one
submission GET, with a token and a second non-JSON body it returns the
None sentinel after exactly two submission GETs; in every run the
submission GET count is at most two. -/
theorem c3_submission_retry_bound (sr pr : Nat → Response) :
    (check_url sr pr).subCalls ≤ 2 ∧
    (looksJson (sr 0).text = false → get_csrf_token (sr 0).text = none →
      check_url sr pr = ⟨none, some CheckErr.csrfExtract, 1, 0, 0⟩) ∧
    (∀ tok, looksJson (sr 0).text = false → get_csrf_token (sr 0).text = some tok →
      looksJson (sr 1).text = false →
      check_url sr pr = ⟨none, some CheckErr.htmlAfterToken, 2, 0, 0⟩) := by
  refine ⟨?_, ?_, ?_⟩
  · rw [lem_check_url_sub]
    rcases lem_submit_calls sr with h | h <;> omega
  · intro h0 ht
    have hs : submitPhase sr = (Except.error CheckErr.csrfExtract, 1) := by
      simp [submitPhase, h0, ht]
    unfold check_url
    rw [hs]
  · intro tok h0 ht h1
    have hs : submitPhase sr = (Except.error CheckErr.htmlAfterToken, 2) := by
      simp [submitPhase, h0, ht, h1]
    unfold check_url
    rw [hs]

/-- Witness for C3 on concrete challenge pages. -/
theorem c3_witness :
    check_url srHtmlNoTok prUsIn = ⟨none, some CheckErr.csrfExtract, 1, 0, 0⟩ ∧
    check_url srHtmlTok prUsIn = ⟨none, some CheckErr.htmlAfterToken, 2, 0, 0⟩ ∧
    (check_url srTicket prUsIn).subCalls ≤ 2 := by
  refine ⟨?_, ?_, (c3_submission_retry_bound srTicket prUsIn).1⟩
  · exact (c3_submission_retry_bound srHtmlNoTok prUsIn).2.1 rfl rfl
  · exact (c3_submission_retry_bound srHtmlTok prUsIn).2.2 ("t0k") rfl rfl rfl

/-- C4: the poller makes at most 10 attempts and sleeps two units before
each one; blank bodies continue to the next attempt, so ten blank bodies
give the timeout sentinel after exactly ten poll GETs and twenty slept
units, while a truthy parse at attempt i returns that value at once
after exactly i + 1 poll GETs. -/
theorem c4_poll_loop_bounds (pr : Nat → Response) (sub : Nat) :
    ((pollPhase pr sub).pollCalls ≤ 10 ∧
      (pollPhase pr sub).sleepUnits = 2 * (pollPhase pr sub).pollCalls) ∧
    ((∀ j, j < 10 → isBlank (pr j).text = true) →
      pollPhase pr sub = ⟨none, some CheckErr.timeout, sub, 10, 20⟩) ∧
    (∀ i d, i < 10 → (∀ j, j < i → isBlank (pr j).text = true) →
      isBlank (pr i).text = false → (pr i).json = some d → pyTruthy d = true →
      pollPhase pr sub = ⟨some d, none, sub, i + 1, 2 * (i + 1)⟩) := by
  refine ⟨⟨?_, ?_⟩, ?_, ?_⟩
  · have := lem_pollGo_calls_le pr sub 10 0
    simpa [pollPhase] using this
  · exact lem_pollGo_sleep pr sub 10 0
  · intro hall
    have hs : ∀ j, j < 10 → skipResp (pr (0 + j)) = true := by
      intro j hj
      simp [skipResp, hall j hj]
    have h := lem_pollGo_skipN pr sub 10 10 0 (le_refl 10) hs
    show pollGo pr sub 10 0 = _
    rw [h]
    rfl
  · intro i d hi hblank hnb hj ht
    have hs : ∀ j, j < i → skipResp (pr (0 + j)) = true := by
      intro j hjlt
      simp [skipResp, hblank j hjlt]
    have hstep := lem_pollGo_skipN pr sub i 10 0 (by omega) hs
    show pollGo pr sub 10 0 = _
    rw [hstep]
    have h10 : 10 - i = (9 - i) + 1 := by omega
    rw [h10]
    simp [pollGo, hnb, hj, ht]

/-- Witness for C4: an all-blank poller times out after ten GETs, and a
first-attempt truthy result is returned at once. -/
theorem c4_witness :
    pollPhase (fun _ => respBlank) 1 = ⟨none, some CheckErr.timeout, 1, 10, 20⟩ ∧
    pollPhase prUsIn 1 = ⟨some resUsIn, none, 1, 1, 2⟩ := by
  constructor
  · exact (c4_poll_loop_bounds (fun _ => respBlank) 1).2.1 (fun j hj => rfl)
  · have h := (c4_poll_loop_bounds prUsIn 1).2.2 0 resUsIn (by omega)
      (fun j hj => absurd hj (Nat.not_lt_zero j)) rfl rfl rfl
    simpa using h

/-- C5: a poll attempt whose body is non-empty but fails JSON parsing
makes the poller return the None sentinel at once: the error branch is
the invalid-JSON message and exactly i + 1 poll GETs were made. -/
theorem c5_poll_bad_json_aborts (pr : Nat → Response) (sub i : Nat)
    (h1 : i < 10) (h2 : ∀ j, j < i → skipResp (pr j) = true)
    (h3 : isBlank (pr i).text = false) (h4 : (pr i).json = none) :
    pollPhase pr sub = ⟨none, some CheckErr.invalidJson, sub, i + 1, 2 * (i + 1)⟩ := by
  have hs : ∀ j, j < i → skipResp (pr (0 + j)) = true := by
    intro j hjlt
    simpa using h2 j hjlt
  have hstep := lem_pollGo_skipN pr sub i 10 0 (by omega) hs
  show pollGo pr sub 10 0 = _
  rw [hstep]
  have h10 : 10 - i = (9 - i) + 1 := by omega
  rw [h10]
  simp [pollGo, h3, h4]

/-- Witness for C5: a first-attempt HTML body aborts the poll loop after
one poll GET. -/
theorem c5_witness :
    pollPhase prBadJson 1 = ⟨none, some CheckErr.invalidJson, 1, 1, 2⟩ := by
  have h := c5_poll_bad_json_aborts prBadJson 1 0 (by omega)
    (fun j hj => absurd hj (Nat.not_lt_zero j)) rfl rfl
  simpa using h

/-- C10: a non-empty poll body parsing to a falsy JSON value is treated
exactly like a blank not-ready body: replacing every such response by a
blank one leaves the poll loop output unchanged, and ten skipped
attempts give the very timeout output of the all-blank poller. -/
theorem c10_falsy_poll_like_blank (pr : Nat → Response) (sub : Nat) :
    pollPhase pr sub =
      pollPhase (fun j => if falsyJsonResp (pr j) then respBlank else pr j) sub ∧
    ((∀ j, j < 10 → skipResp (pr j) = true) →
      pollPhase pr sub = ⟨none, some CheckErr.timeout, sub, 10, 20⟩ ∧
      pollPhase pr sub = pollPhase (fun _ => respBlank) sub) := by
  constructor
  · exact lem_pollGo_mask pr sub 10 0
  · intro hall
    have hs : ∀ j, j < 10 → skipResp (pr (0 + j)) = true := by
      intro j hj
      simpa using hall j hj
    have h := lem_pollGo_skipN pr sub 10 10 0 (le_refl 10) hs
    constructor
    · show pollGo pr sub 10 0 = _
      rw [h]
      rfl
    · show pollGo pr sub 10 0 = _
      rw [h]
      rfl

/-- Witness for C10: ten empty-object bodies time out exactly like ten
blank bodies. -/
theorem c10_witness :
    pollPhase prFalsy 3 = ⟨none, some CheckErr.timeout, 3, 10, 20⟩ ∧
    pollPhase prFalsy 3 = pollPhase (fun _ => respBlank) 3 := by
  exact (c10_falsy_poll_like_blank prFalsy 3).2 (fun j hj => rfl)

/-- C6: the direct probe is active exactly when the status code lies in
the 200 to 399 range, and a transport failure yields inactive with the
exception message as detail; a single request outcome fully determines
the answer (there is no retry input to consume). -/
theorem c6_direct_probe (resp : Except String Nat) :
    ((check_with_scraping resp).1 = true ↔
      ∃ code, resp = Except.ok code ∧ 200 ≤ code ∧ code < 400) ∧
    (∀ e, resp = Except.error e → check_with_scraping resp = (false, e)) ∧
    (∀ code, resp = Except.ok code →
      (200 ≤ code ∧ code < 400 →
        check_with_scraping resp = (true, ("HTTP ") ++ toString code)) ∧
      (¬(200 ≤ code ∧ code < 400) →
        check_with_scraping resp = (false, ("HTTP ") ++ toString code))) := by
  rcases resp with e | code
  · refine ⟨?_, ?_, ?_⟩
    · simp [check_with_scraping]
    · intro e2 he
      cases he
      rfl
    · intro c hc
      cases hc
  · refine ⟨?_, ?_, ?_⟩
    · constructor
      · intro ht
        by_cases h : 200 ≤ code ∧ code < 400
        · exact ⟨code, rfl, h⟩
        · simp [check_with_scraping, h] at ht
      · rintro ⟨c, hc, hr1, hr2⟩
        cases hc
        simp [check_with_scraping, hr1, hr2]
    · intro e2 he
      cases he
    · intro c hc
      cases hc
      constructor
      · intro h
        simp [check_with_scraping, h]
      · intro h
        simp [check_with_scraping, h]

/-- Witness for C6 on a refused connection and on status 301. -/
theorem c6_witness :
    check_with_scraping (Except.error ("connection refused")) = (false, ("connection refused")) ∧
    (check_with_scraping (Except.ok 301)).1 = true := by
  constructor
  · exact (c6_direct_probe (Except.error ("connection refused"))).2.1 _ rfl
  · exact (c6_direct_probe (Except.ok 301)).1.mpr ⟨301, rfl, by omega, by omega⟩

/-- C7: when the direct probe sees a status in the 200 to 399 range the
orchestrator emits the Active (Direct) row and issues zero submission
GETs and zero poll GETs. -/
theorem c7_active_direct_no_remote (url : String) (code : Nat) (sr pr : Nat → Response)
    (h1 : 200 ≤ code) (h2 : code < 400) :
    processUrl url (Except.ok code) sr pr =
      Except.ok ⟨⟨url, ("Active (Direct)"), ("")⟩, 0, 0⟩ := by
  simp [processUrl, check_with_scraping, h1, h2]

/-- Witness for C7 at status 200. -/
theorem c7_witness :
    processUrl ("http://a.example") (Except.ok 200) srTicket prUsIn =
      Except.ok ⟨⟨("http://a.example"), ("Active (Direct)"), ("")⟩, 0, 0⟩ := by
  exact c7_active_direct_no_remote ("http://a.example") 200 srTicket prUsIn (by omega) (by omega)

/-- Helper: the Boolean None test agrees with propositional
inequality. -/
theorem lem_isNoneVal_false (v : PyVal) : isNoneVal v = false ↔ v ≠ PyVal.vNone := by
  cases v <;> simp [isNoneVal]

/-- Helper: a non-empty list value is truthy. -/
theorem lem_pyTruthy_cons (c : PyVal) (l : List PyVal) :
    pyTruthy (PyVal.vList (c :: l)) = true := by
  simp [pyTruthy]

/-- Helper: the per-node activity test holds exactly on a truthy list
whose truthy first element parses to success flag 1 and to a non-None
status in the 200 to 399 range. -/
theorem lem_nodeActive_iff (res : PyVal) :
    nodeActive res = true ↔
      ∃ check rest, res = PyVal.vList (check :: rest) ∧ pyTruthy check = true ∧
        (pyIndex check 0).bind pyToInt = some 1 ∧
        ∃ s, pyIndex check 3 = some s ∧ s ≠ PyVal.vNone ∧
          ∃ sc, pyToInt s = some sc ∧ 200 ≤ sc ∧ sc < 400 := by
  constructor
  · intro h
    rcases res with _ | b | n | s0 | xs | kvs0
    case vList =>
      rcases xs with _ | ⟨check, rest⟩
      · simp [nodeActive, pyTruthy] at h
      · cases hchk : pyTruthy check
        · simp [nodeActive, lem_pyTruthy_cons, hchk] at h
        · rcases h0 : pyIndex check 0 with _ | c0
          · simp [nodeActive, lem_pyTruthy_cons, hchk, h0] at h
          · rcases hsf : pyToInt c0 with _ | sf
            · simp [nodeActive, lem_pyTruthy_cons, hchk, h0, hsf] at h
            · rcases h3 : pyIndex check 3 with _ | c3
              · simp [nodeActive, lem_pyTruthy_cons, hchk, h0, hsf, h3] at h
              · cases hnn : isNoneVal c3
                · rcases hsc : pyToInt c3 with _ | sc
                  · simp [nodeActive, lem_pyTruthy_cons, hchk, h0, hsf, h3, hnn, hsc] at h
                  · simp [nodeActive, lem_pyTruthy_cons, hchk, h0, hsf, h3, hnn, hsc] at h
                    obtain ⟨hs1, ⟨hne0, hge⟩, hlt⟩ := h
                    refine ⟨check, rest, rfl, hchk, ?_, c3, h3,
                      (lem_isNoneVal_false c3).mp hnn, sc, hsc, hge, hlt⟩
                    rw [h0]
                    show pyToInt c0 = some 1
                    rw [hsf, hs1]
                · simp [nodeActive, lem_pyTruthy_cons, hchk, h0, hsf, h3, hnn] at h
    all_goals simp [nodeActive, pyTruthy] at h
  · rintro ⟨check, rest, rfl, hchk, h01, s, h3, hsne, sc, hsc, hge, hlt⟩
    rcases hx : pyIndex check 0 with _ | c0
    · rw [hx] at h01
      cases h01
    · rw [hx] at h01
      have h01x : pyToInt c0 = some 1 := h01
      have hnn : isNoneVal s = false := (lem_isNoneVal_false s).mpr hsne
      have hsc0 : sc ≠ 0 := by omega
      simp [nodeActive, lem_pyTruthy_cons, hchk, hx, h01x, h3, hnn, hsc, hsc0, hge, hlt]

/-- C2: a node id is reported active by the classifier exactly when its
entry is a non-empty list whose truthy first element has a success flag
parsing to the integer 1 and a non-None status parsing to an integer in
the 200 to 399 range; every malformed entry is skipped, never raised
on. -/
theorem c2_classifier_active_iff (kvs : List (String × PyVal)) (node : String) :
    (∃ l, analyze_result (PyVal.vDict kvs) = Except.ok l ∧ node ∈ l) ↔
      ∃ res, (node, res) ∈ kvs ∧
        ∃ check rest, res = PyVal.vList (check :: rest) ∧ pyTruthy check = true ∧
          (pyIndex check 0).bind pyToInt = some 1 ∧
          ∃ s, pyIndex check 3 = some s ∧ s ≠ PyVal.vNone ∧
            ∃ sc, pyToInt s = some sc ∧ 200 ≤ sc ∧ sc < 400 := by
  constructor
  · rintro ⟨l, hl, hn⟩
    simp only [analyze_result, Except.ok.injEq] at hl
    rw [← hl] at hn
    simp only [activeNodesOf, List.mem_map, List.mem_filter] at hn
    rcases hn with ⟨⟨k, res⟩, ⟨hmem, hact⟩, hk⟩
    have hk2 : k = node := hk
    subst hk2
    rcases (lem_nodeActive_iff res).mp hact with ⟨check, rest, hres, hrest⟩
    exact ⟨res, hmem, check, rest, hres, hrest⟩
  · rintro ⟨res, hmem, hcond⟩
    refine ⟨activeNodesOf kvs, rfl, ?_⟩
    simp only [activeNodesOf, List.mem_map, List.mem_filter]
    exact ⟨(node, res), ⟨hmem, (lem_nodeActive_iff res).mpr hcond⟩, rfl⟩

/-- Witness for C2: in a concrete poll result the USA node is reported
active. -/
theorem c2_witness :
    ∃ l, analyze_result resUsIn = Except.ok l ∧ ("us1.node") ∈ l := by
  refine (c2_classifier_active_iff
    [(("us1.node"), PyVal.vList [okCheck]), (("in2.node"), PyVal.vList [okCheck])]
    ("us1.node")).mpr ?_
  refine ⟨PyVal.vList [okCheck], by simp, okCheck, [], rfl, rfl, rfl,
    PyVal.vInt 200, rfl, by simp, 200, rfl, by omega, by omega⟩

/-- C1: when the direct probe failed and check_url returned a mapping,
the orchestrator classifies it as follows: a non-empty India-filtered
country list gives the Active (Other Countries) row listing exactly the
non-excluded names, active nodes that all map to India give the
Inactive (No non-India nodes) row, and no active nodes give the
Inactive row. -/
theorem c1_orchestrator_region_classification (url : String) (scrape : Except String Nat)
    (sr pr : Nat → Response) (kvs : List (String × PyVal))
    (h1 : (check_with_scraping scrape).1 = false)
    (h2 : (check_url sr pr).result = some (PyVal.vDict kvs)) :
    (((activeNodesOf kvs).map map_node_to_country).filter (fun c => c ≠ ("India")) ≠ [] →
      processUrl url scrape sr pr = Except.ok ⟨⟨url, ("Active (Other Countries)"),
        (", ").intercalate (((activeNodesOf kvs).map map_node_to_country).filter
          (fun c => c ≠ ("India")))⟩,
        (check_url sr pr).subCalls, (check_url sr pr).pollCalls⟩) ∧
    (activeNodesOf kvs ≠ [] →
      (∀ n ∈ activeNodesOf kvs, map_node_to_country n = ("India")) →
      processUrl url scrape sr pr = Except.ok ⟨⟨url, ("Inactive (No non-India nodes)"), ("")⟩,
        (check_url sr pr).subCalls, (check_url sr pr).pollCalls⟩) ∧
    (activeNodesOf kvs = [] →
      processUrl url scrape sr pr = Except.ok ⟨⟨url, ("Inactive"), ("")⟩,
        (check_url sr pr).subCalls, (check_url sr pr).pollCalls⟩) := by
  have htr : pyTruthy (PyVal.vDict kvs) = true := lem_check_url_some_truthy sr pr _ h2
  refine ⟨?_, ?_, ?_⟩
  · intro hf
    have hne : activeNodesOf kvs ≠ [] := by
      intro h0
      apply hf
      simp [h0]
    simp [processUrl, h1, h2, htr, analyze_result, hne, hf]
    rcases List.exists_mem_of_ne_nil _ hf with ⟨c, hc⟩
    rw [List.mem_filter] at hc
    rcases hc with ⟨hcm, hcd⟩
    rw [List.mem_map] at hcm
    rcases hcm with ⟨n, hn, rfl⟩
    exact ⟨n, hn, by simpa using hcd⟩
  · intro hne hall
    simp [processUrl, h1, h2, htr, analyze_result, hne]
    exact hall
  · intro h0
    simp [processUrl, h1, h2, htr, analyze_result, h0]

/-- Witness for C1: a concrete poll result with one USA node and one
India node is classified as Active (Other Countries) with only USA. -/
theorem c1_witness :
    processUrl ("http://a.example") cexScrape srTicket prUsIn =
      Except.ok ⟨⟨("http://a.example"), ("Active (Other Countries)"), ("USA")⟩, 1, 1⟩ := by
  have hfil : ((activeNodesOf
      [(("us1.node"), PyVal.vList [okCheck]), (("in2.node"), PyVal.vList [okCheck])]).map
        map_node_to_country).filter (fun c => c ≠ ("India")) = [("USA")] := rfl
  have h := (c1_orchestrator_region_classification ("http://a.example") cexScrape srTicket prUsIn
    [(("us1.node"), PyVal.vList [okCheck]), (("in2.node"), PyVal.vList [okCheck])]
    rfl rfl).1 (by rw [hfil]; exact List.cons_ne_nil _ _)
  rw [hfil] at h
  exact h

/-- Counterexample to C8: when the direct probe fails, the submission
succeeds, and the poll body is the JSON list [1] (non-empty, truthy),
check_url returns that list and analyze_result raises an uncaught
AttributeError on result.items(), which propagates out of the per-URL
checking path. -/
theorem c8_counterexample :
    processUrl ("http://a.example") cexScrape srTicket prListBody = Except.error () := by
  rfl

/-- C8 amended: check_url converts every failure into the None sentinel
together with an error branch, the direct probe converts a transport
exception into inactive with its message, and the per-URL path can only
raise through analyze_result receiving a truthy non-mapping poll
value. -/
theorem c8_amended_error_containment (url : String) (scrape : Except String Nat)
    (sr pr : Nat → Response) :
    ((check_url sr pr).result = none ↔ (check_url sr pr).err.isSome = true) ∧
    (∀ e, scrape = Except.error e → check_with_scraping scrape = (false, e)) ∧
    ((∃ out, processUrl url scrape sr pr = Except.ok out) ∨
      (∃ v, (check_url sr pr).result = some v ∧ pyTruthy v = true ∧
        analyze_result v = Except.error ())) := by
  refine ⟨lem_check_url_none_iff sr pr, ?_, ?_⟩
  · intro e he
    cases he
    rfl
  · cases hs : (check_with_scraping scrape).1
    · rcases hres : (check_url sr pr).result with _ | bulk
      · refine Or.inl ⟨⟨⟨url, ("Error retrieving API data"), ("")⟩,
          (check_url sr pr).subCalls, (check_url sr pr).pollCalls⟩, ?_⟩
        simp [processUrl, hs, hres]
      · cases htr : pyTruthy bulk
        · refine Or.inl ⟨⟨⟨url, ("Error retrieving API data"), ("")⟩,
            (check_url sr pr).subCalls, (check_url sr pr).pollCalls⟩, ?_⟩
          simp [processUrl, hs, hres, htr]
        · rcases ha : analyze_result bulk with e | ns
          · cases e
            exact Or.inr ⟨bulk, rfl, htr, ha⟩
          · cases hns : ns.isEmpty
            · cases hfil : ((ns.map map_node_to_country).filter (fun c => c ≠ ("India"))).isEmpty
              · refine Or.inl ⟨⟨⟨url, ("Active (Other Countries)"),
                  (", ").intercalate ((ns.map map_node_to_country).filter
                    (fun c => c ≠ ("India")))⟩,
                  (check_url sr pr).subCalls, (check_url sr pr).pollCalls⟩, ?_⟩
                simp [processUrl, hs, hres, htr, ha, hns, hfil]
                have hne2 : (ns.map map_node_to_country).filter (fun c => c ≠ ("India")) ≠ [] := by
                  intro h0
                  rw [h0] at hfil
                  cases hfil
                rcases List.exists_mem_of_ne_nil _ hne2 with ⟨c, hc⟩
                rw [List.mem_filter] at hc
                rcases hc with ⟨hcm, hcd⟩
                rw [List.mem_map] at hcm
                rcases hcm with ⟨n, hn, rfl⟩
                exact ⟨n, hn, by simpa using hcd⟩
              · refine Or.inl ⟨⟨⟨url, ("Inactive (No non-India nodes)"), ("")⟩,
                  (check_url sr pr).subCalls, (check_url sr pr).pollCalls⟩, ?_⟩
                simp [processUrl, hs, hres, htr, ha, hns, hfil]
                have hfil2 : (ns.map map_node_to_country).filter (fun c => c ≠ ("India")) = [] :=
                  List.isEmpty_iff.mp hfil
                intro x hx
                by_contra hxne
                have hmem : map_node_to_country x ∈
                    (ns.map map_node_to_country).filter (fun c => c ≠ ("India")) := by
                  rw [List.mem_filter]
                  exact ⟨List.mem_map_of_mem _ hx, by simpa using hxne⟩
                rw [hfil2] at hmem
                cases hmem
            · refine Or.inl ⟨⟨⟨url, ("Inactive"), ("")⟩,
                (check_url sr pr).subCalls, (check_url sr pr).pollCalls⟩, ?_⟩
              simp [processUrl, hs, hres, htr, ha, hns]
    · refine Or.inl ⟨⟨⟨url, ("Active (Direct)"), ("")⟩, 0, 0⟩, ?_⟩
      simp [processUrl, hs]

/-- Witness for C8 amended on a concrete transport failure and the
list-body scenario. -/
theorem c8_witness :
    check_with_scraping cexScrape = (false, ("connection error")) ∧
    ((∃ out, processUrl ("http://a.example") cexScrape srTicket prListBody = Except.ok out) ∨
      (∃ v, (check_url srTicket prListBody).result = some v ∧ pyTruthy v = true ∧
        analyze_result v = Except.error ())) := by
  exact ⟨(c8_amended_error_containment ("http://a.example") cexScrape srTicket prListBody).2.1
      _ rfl,
    (c8_amended_error_containment ("http://a.example") cexScrape srTicket prListBody).2.2⟩

/-- Helper: a field without quote characters keeps the needed character
facts after a quote-free check. -/
theorem lem_noQuote_chars (f : List Char) (h : fieldNeedsQuote f = false) :
    ∀ c ∈ f, c ≠ ',' ∧ c ≠ '"' := by
  intro c hc
  simp only [fieldNeedsQuote, List.any_eq_false] at h
  have hx := h c hc
  simp only [Bool.or_eq_true, decide_eq_true_eq, not_or] at hx
  exact ⟨hx.1.1.1, hx.1.1.2⟩

/-- Helper: inside an unquoted field every comma-free run is consumed
into the field accumulator, up to the following separator. -/
theorem lem_pfGo_unq_comma (rest : List Char) :
    ∀ cs acc, (∀ c ∈ cs, c ≠ ',') →
      pfGo PMode.unq acc (cs ++ ',' :: rest) = (acc.reverse ++ cs) :: pfGo PMode.start [] rest := by
  intro cs
  induction cs with
  | nil =>
      intro acc h
      simp [pfGo]
  | cons c cs ih =>
      intro acc h
      have hc : c ≠ ',' := h c (by simp)
      simp only [List.cons_append, pfGo, List.append_eq]
      rw [if_neg hc, ih (c :: acc) (fun x hx => h x (by simp [hx]))]
      simp

/-- Helper: inside an unquoted field a comma-free tail ends the
record with the accumulated field. -/
theorem lem_pfGo_unq_end :
    ∀ cs acc, (∀ c ∈ cs, c ≠ ',') → pfGo PMode.unq acc cs = [acc.reverse ++ cs] := by
  intro cs
  induction cs with
  | nil =>
      intro acc h
      simp [pfGo]
  | cons c cs ih =>
      intro acc h
      have hc : c ≠ ',' := h c (by simp)
      simp only [pfGo]
      rw [if_neg hc, ih (c :: acc) (fun x hx => h x (by simp [hx]))]
      simp

/-- Helper: just after an unmatched quote inside a quoted field, the
parser behaves like the unquoted mode when the next character is not a
quote. -/
theorem lem_pfGo_qq (acc t : List Char) (ht : t.head? ≠ some '"') :
    pfGo PMode.qq acc t = pfGo PMode.unq acc t := by
  cases t with
  | nil => simp [pfGo]
  | cons d t2 =>
      have hd : d ≠ '"' := by
        intro hdq
        apply ht
        simp [hdq]
      by_cases hc : d = ','
      · subst hc
        simp [pfGo]
      · simp [pfGo, hd, hc]

/-- Helper: a quoted run with doubled quotes is read back verbatim up to
the closing quote, provided the next character is not a quote. -/
theorem lem_pfGo_quoted :
    ∀ cs acc t, t.head? ≠ some '"' →
      pfGo PMode.inq acc (escQuotes cs ++ '"' :: t) = pfGo PMode.unq (cs.reverse ++ acc) t := by
  intro cs
  induction cs with
  | nil =>
      intro acc t ht
      show pfGo PMode.inq acc ('"' :: t) = _
      simp only [pfGo, ite_true]
      rw [lem_pfGo_qq acc t ht]
      simp
  | cons c cs ih =>
      intro acc t ht
      by_cases hc : c = '"'
      · subst hc
        have he : escQuotes ('"' :: cs) = '"' :: '"' :: escQuotes cs := by
          simp [escQuotes]
        rw [he]
        simp only [List.cons_append, pfGo, List.append_eq, ite_true]
        rw [ih ('"' :: acc) t ht]
        simp
      · have he : escQuotes (c :: cs) = c :: escQuotes cs := by
          simp [escQuotes, hc]
        rw [he]
        simp only [List.cons_append, pfGo, List.append_eq]
        rw [if_neg hc, ih (c :: acc) t ht]
        simp

/-- Helper: an encoded field followed by a separator parses back to the
field and leaves the parser at the start of the next field. -/
theorem lem_enc_comma (f acc rest : List Char) :
    pfGo PMode.start acc (encFieldL f ++ ',' :: rest) =
      (acc.reverse ++ f) :: pfGo PMode.start [] rest := by
  unfold encFieldL
  by_cases hq : fieldNeedsQuote f = true
  · rw [if_pos hq]
    have hsh : ('"' :: (escQuotes f ++ ['"'])) ++ ',' :: rest =
        '"' :: (escQuotes f ++ '"' :: (',' :: rest)) := by
      simp
    rw [hsh]
    simp only [pfGo, ite_true]
    rw [lem_pfGo_quoted f acc (',' :: rest) (by simp)]
    simp [pfGo]
  · rw [if_neg hq]
    have hfa := lem_noQuote_chars f (by simpa using hq)
    cases f with
    | nil => simp [pfGo]
    | cons c cs =>
        have hc := hfa c (by simp)
        simp only [List.cons_append, pfGo, List.append_eq]
        rw [if_neg hc.2, if_neg hc.1,
          lem_pfGo_unq_comma rest cs (c :: acc) (fun x hx => (hfa x (by simp [hx])).1)]
        simp

/-- Helper: an encoded final field parses back to the field and ends the
record. -/
theorem lem_enc_end (f acc : List Char) :
    pfGo PMode.start acc (encFieldL f) = [acc.reverse ++ f] := by
  unfold encFieldL
  by_cases hq : fieldNeedsQuote f = true
  · rw [if_pos hq]
    have hsh : ('"' :: (escQuotes f ++ ['"'])) =
        '"' :: (escQuotes f ++ '"' :: ([] : List Char)) := by
      simp
    rw [hsh]
    simp only [pfGo, ite_true]
    rw [lem_pfGo_quoted f acc [] (by simp)]
    simp [pfGo]
  · rw [if_neg hq]
    have hfa := lem_noQuote_chars f (by simpa using hq)
    cases f with
    | nil => simp [pfGo]
    | cons c cs =>
        have hc := hfa c (by simp)
        simp only [pfGo]
        rw [if_neg hc.2, if_neg hc.1,
          lem_pfGo_unq_end cs (c :: acc) (fun x hx => (hfa x (by simp [hx])).1)]
        simp

/-- Helper: every rendered record parses back to exactly its three
fields, whatever characters they contain. -/
theorem lem_parse_enc (r : Row) :
    parseRecord (encRecordL r) = [r.url.data, r.status.data, r.otherActive.data] := by
  unfold parseRecord encRecordL
  rw [lem_enc_comma, lem_enc_comma, lem_enc_end]
  simp

/-- Helper: doubling quotes does not change the newline count. -/
theorem lem_escQuotes_count (cs : List Char) :
    (escQuotes cs).count '\n' = cs.count '\n' := by
  induction cs with
  | nil => rfl
  | cons c cs ih =>
      by_cases hc : c = '"'
      · subst hc
        simp [escQuotes, ih, List.count_cons]
      · simp [escQuotes, hc, ih, List.count_cons]

/-- Helper: encoding a newline-free field yields newline-free output. -/
theorem lem_encFieldL_count (f : List Char) (h : f.count '\n' = 0) :
    (encFieldL f).count '\n' = 0 := by
  unfold encFieldL
  by_cases hq : fieldNeedsQuote f = true
  · rw [if_pos hq]
    simp [List.count_cons, List.count_append, lem_escQuotes_count, h]
  · rw [if_neg hq]
    exact h

/-- Helper: a record over newline-free fields is newline-free. -/
theorem lem_record_count (r : Row)
    (h : r.url.data.count '\n' = 0 ∧ r.status.data.count '\n' = 0 ∧
      r.otherActive.data.count '\n' = 0) :
    (encRecordL r).count '\n' = 0 := by
  unfold encRecordL
  simp [List.count_append, List.count_cons, lem_encFieldL_count _ h.1,
    lem_encFieldL_count _ h.2.1, lem_encFieldL_count _ h.2.2]

/-- Helper: the rendered rows contribute one newline each when their
fields are newline-free. -/
theorem lem_rows_count (rows : List Row)
    (h : ∀ r ∈ rows, r.url.data.count '\n' = 0 ∧ r.status.data.count '\n' = 0 ∧
      r.otherActive.data.count '\n' = 0) :
    (rows.foldr (fun r acc => encRecordL r ++ '\n' :: acc) []).count '\n' = rows.length := by
  induction rows with
  | nil => rfl
  | cons r rows ih =>
      simp only [List.foldr_cons, List.count_append, List.count_cons]
      rw [lem_record_count r (h r (by simp)), ih (fun x hx => h x (by simp [hx]))]
      simp

/-- Helper: the exported CSV of rows with newline-free fields has one
newline per row plus one for the header. -/
theorem lem_to_csv_count (rows : List Row)
    (h : ∀ r ∈ rows, r.url.data.count '\n' = 0 ∧ r.status.data.count '\n' = 0 ∧
      r.otherActive.data.count '\n' = 0) :
    nlCount (to_csv rows) = rows.length + 1 := by
  show (csvChars rows).count '\n' = rows.length + 1
  unfold csvChars
  rw [List.count_append, List.count_cons, lem_rows_count rows h]
  have hh : csvHeaderL.count '\n' = 0 := by decide
  rw [hh]
  simp

/-- Helper: the batch loop yields exactly one row per input URL. -/
theorem lem_runBatch_len (scrape : String → Except String Nat)
    (sr pr : String → Nat → Response) :
    ∀ urls rows, runBatch scrape sr pr urls = Except.ok rows → rows.length = urls.length := by
  intro urls
  induction urls with
  | nil =>
      intro rows h
      cases h
      rfl
  | cons u urls ih =>
      intro rows h
      unfold runBatch at h
      rcases hp : processUrl u (scrape u) (sr u) (pr u) with e | out
      · rw [hp] at h
        cases h
      · rw [hp] at h
        rcases hr : runBatch scrape sr pr urls with e | rows2
        · rw [hr] at h
          cases h
        · rw [hr] at h
          cases h
          simp [ih rows2 hr]

/-- Counterexample to C9: an active node id containing a newline leaks
into the Other Active Countries field, and the exported CSV of this one
row then has three newline-terminated lines instead of N + 1 = 2 (the
field is quoted, so it still forms a single CSV record). -/
theorem c9_counterexample :
    runBatch (fun _ => cexScrape) (fun _ => srTicket) (fun _ => prNlNode) [("http://a.example")] =
      Except.ok [⟨("http://a.example"), ("Active (Other Countries)"), ("x\ny")⟩] ∧
    nlCount (to_csv [⟨("http://a.example"), ("Active (Other Countries)"), ("x\ny")⟩]) ≠ 1 + 1 := by
  constructor
  · rfl
  · decide

/-- C9 amended: every batch yields exactly one row per input URL, every
rendered record parses back to exactly its in-memory Status and Other
Active Countries fields, and when no field contains a newline character
the exported CSV has exactly N + 1 physical lines. -/
theorem c9_amended_csv_shape (urls : List String) (scrape : String → Except String Nat)
    (sr pr : String → Nat → Response) (rows : List Row)
    (h : runBatch scrape sr pr urls = Except.ok rows) :
    rows.length = urls.length ∧
    (∀ r ∈ rows, parseRecord (encRecordL r) = [r.url.data, r.status.data, r.otherActive.data]) ∧
    ((∀ r ∈ rows, r.url.data.count '\n' = 0 ∧ r.status.data.count '\n' = 0 ∧
        r.otherActive.data.count '\n' = 0) →
      nlCount (to_csv rows) = rows.length + 1) := by
  exact ⟨lem_runBatch_len scrape sr pr urls rows h, fun r _ => lem_parse_enc r,
    fun hnl => lem_to_csv_count rows hnl⟩

/-- Witness for C9 amended on a concrete one-URL batch with a clean
country field. -/
theorem c9_witness :
    nlCount (to_csv [⟨("http://a.example"), ("Active (Other Countries)"), ("USA")⟩]) = 1 + 1 ∧
    parseRecord (encRecordL ⟨("http://a.example"), ("Active (Other Countries)"), ("USA")⟩) =
      [("http://a.example").data, ("Active (Other Countries)").data, ("USA").data] := by
  have h := c9_amended_csv_shape [("http://a.example")] (fun _ => cexScrape)
    (fun _ => srTicket) (fun _ => prUsIn)
    [⟨("http://a.example"), ("Active (Other Countries)"), ("USA")⟩] rfl
  constructor
  · have hc := h.2.2 ?hnl
    case hnl =>
      intro r hr
      rw [List.mem_singleton] at hr
      subst hr
      exact ⟨by decide, by decide, by decide⟩
    simpa using hc
  · exact h.2.1 _ (by simp)

end UrlChe
